import Mathlib

/-!
# Verification of the Chat-App server core

A shallow embedding of `src/chat-app/server.js` (Solo-Hero/Chat-App):
the presence registry (`activeUsernames`, a JS `Set`), per-connection
session state (`socket.username`), the Redis-backed message store
(`lpush` / `lrange 0 -1`), and the socket event handlers
`handleUsernameSelection`, `handleMessage`, `handleDisconnection`,
`loadHistoricalMessages`, together with the connection handler.

JavaScript values that may be a string or `undefined` (a destructured
missing field, an unassigned `socket.username`) are modelled by `JStr`;
JS truthiness (`!socket.username`, `if (socket.username)`) is `JStr.truthy`,
which is false exactly on `undefined` and the empty string.

Redis failures are modelled by a boolean oracle passed to the handler
(`true` = the operation succeeds, `false` = it throws).
-/

namespace ChatApp

/-- A JavaScript value that is either `undefined` or a string
(the only values `socket.username` and a destructured `data.username`
can take in this server). -/
inductive JStr where
  | undef : JStr
  | str : String → JStr
deriving DecidableEq, Repr

/-- JS truthiness of such a value: `undefined` and `""` are falsy,
every other string is truthy. -/
def JStr.truthy : JStr → Bool
  | JStr.undef => false
  | JStr.str s => !(s == "")

/-- The message record built by `handleMessage`:
`{ username: socket.username, message: data.message, timestamp: data.timestamp }`.
The `message` and `timestamp` fields are opaque client-supplied values. -/
structure Message where
  username : JStr
  message : JStr
  timestamp : JStr
deriving DecidableEq, Repr

/-- A live connection: the socket id and the `socket.username` property
(`JStr.undef` until assigned). -/
structure Session where
  sid : Nat
  username : JStr
deriving DecidableEq, Repr

/-- The server state: the `activeUsernames` set, the live sessions, and
the Redis list under `chat_messages` with its head being the most
recently `lpush`ed record. -/
structure ServerState where
  activeUsernames : List JStr
  sessions : List Session
  store : List Message
deriving DecidableEq, Repr

/-- The server with no connections and an empty store and registry. -/
def ServerState.init : ServerState := ⟨[], [], []⟩

/-- Outbound events.  Each constructor records its audience the way the
server addresses it: `socket.emit` carries the receiving socket id,
`socket.broadcast.emit` carries the excluded sender id, `io.emit`
carries no id (all live sessions). -/
inductive Event where
  | usernameTaken : Nat → Event
  | usernameAccepted : Nat → JStr → Event
  | userJoined : Nat → JStr → Event
  | errorEvt : Nat → String → Event
  | messageEvt : Message → Event
  | userLeft : Nat → JStr → Event
  | historicalMessages : Nat → List Message → Event
  | paginatedMessages : Nat → List Message → Bool → Nat → Event
  | historyCleared : JStr → Event
deriving DecidableEq, Repr

/-- Which live socket ids receive an event, given the list of live ids:
`socket.emit` reaches only the named socket, `socket.broadcast.emit`
reaches every live socket except the sender, `io.emit` reaches all. -/
def Event.recipients (live : List Nat) : Event → List Nat
  | Event.usernameTaken t => live.filter (· = t)
  | Event.usernameAccepted t _ => live.filter (· = t)
  | Event.userJoined sender _ => live.filter (· ≠ sender)
  | Event.errorEvt t _ => live.filter (· = t)
  | Event.messageEvt _ => live
  | Event.userLeft sender _ => live.filter (· ≠ sender)
  | Event.historicalMessages t _ => live.filter (· = t)
  | Event.paginatedMessages t _ _ _ => live.filter (· = t)
  | Event.historyCleared _ => live

/-- `socket.username` of the session with id `sid` (`JStr.undef` when the
property was never assigned or the socket is unknown). -/
def getUsername (sessions : List Session) (sid : Nat) : JStr :=
  match sessions.find? (fun s => s.sid = sid) with
  | some s => s.username
  | none => JStr.undef

/-- Assign `socket.username = u` on the session with id `sid`. -/
def setUsername (sessions : List Session) (sid : Nat) (u : JStr) : List Session :=
  sessions.map (fun s => if s.sid = sid then ⟨s.sid, u⟩ else s)

/-- Drop the session with id `sid` (the transport forgetting a closed
connection). -/
def removeSession (sessions : List Session) (sid : Nat) : List Session :=
  sessions.filter (fun s => s.sid ≠ sid)

/-- The live socket ids. -/
def ServerState.live (st : ServerState) : List Nat :=
  st.sessions.map Session.sid

/-- `handleUsernameSelection(socket, data)` (server.js lines 170-197):
destructure `data.username`; if it is in `activeUsernames`, emit
`username_taken` to the socket and stop; otherwise add it to the set,
assign `socket.username`, emit `username_accepted` to the socket and
broadcast `user_joined` to everyone else.  There is no check that the
socket is still unnamed and no validation of the value. -/
def handleUsernameSelection (st : ServerState) (sid : Nat) (u : JStr) :
    ServerState × List Event :=
  if st.activeUsernames.contains u then
    (st, [Event.usernameTaken sid])
  else
    ({ st with
        activeUsernames := u :: st.activeUsernames,
        sessions := setUsername st.sessions sid u },
     [Event.usernameAccepted sid u, Event.userJoined sid u])

/-- `handleMessage(socket, data)` (server.js lines 207-257): if
`!socket.username` (JS-falsy: unset or the empty string), emit an
`error` to the socket and stop.  Otherwise build
`{ username: socket.username, message: data.message, timestamp: data.timestamp }`
(the client-supplied `data.username` is never read), `lpush` it onto the
store, and on success `io.emit` it to everyone; if the `lpush` throws
(`appendOk = false`), emit an `error` to the socket only. -/
def handleMessage (st : ServerState) (sid : Nat)
    (payloadMessage payloadTimestamp : JStr) (appendOk : Bool) :
    ServerState × List Event :=
  let u := getUsername st.sessions sid
  if !u.truthy then
    (st, [Event.errorEvt sid "Please select a username before sending messages."])
  else
    let messageData : Message := ⟨u, payloadMessage, payloadTimestamp⟩
    if appendOk then
      ({ st with store := messageData :: st.store },
       [Event.messageEvt messageData])
    else
      (st, [Event.errorEvt sid "Failed to send message. Please try again."])

/-- `handleDisconnection(socket)` (server.js lines 266-284), together with
the transport dropping the closed connection: if `socket.username` is
JS-truthy, delete it from `activeUsernames` and broadcast `user_left` to
everyone else; otherwise touch neither the registry nor the other
sessions. -/
def handleDisconnection (st : ServerState) (sid : Nat) :
    ServerState × List Event :=
  let u := getUsername st.sessions sid
  if u.truthy then
    ({ st with
        activeUsernames := st.activeUsernames.erase u,
        sessions := removeSession st.sessions sid },
     [Event.userLeft sid u])
  else
    ({ st with sessions := removeSession st.sessions sid }, [])

/-- `loadHistoricalMessages(socket)` (server.js lines 293-323):
`lrange(chat_messages, 0, -1)` returns the whole Redis list head first,
i.e. most recently pushed first, and it is emitted unchanged as one
`historical_messages` event to the socket; on a store failure an `error`
event goes to the socket instead. -/
def loadHistoricalMessages (st : ServerState) (sid : Nat) (readOk : Bool) :
    ServerState × List Event :=
  if readOk then
    (st, [Event.historicalMessages sid st.store])
  else
    (st, [Event.errorEvt sid "Failed to load chat history."])

/-- The connection handler (server.js lines 330-343): register the new
session with `socket.username` unset, then push the backlog via
`loadHistoricalMessages` before the `select_username` / `message` /
`disconnect` listeners are attached. -/
def handleConnection (st : ServerState) (sid : Nat) (readOk : Bool) :
    ServerState × List Event :=
  loadHistoricalMessages
    { st with sessions := st.sessions ++ [⟨sid, JStr.undef⟩] } sid readOk

/-- The chronological (oldest appended first) view of the store: the
reverse of the Redis list, since `lpush` prepends. -/
def chronological (store : List Message) : List Message := store.reverse

/-- Inbound occurrences the server reacts to, one constructor per
registered listener plus the connection itself.  Store-failure oracles
ride along with the occurrence. -/
inductive Input where
  | connect : Nat → Bool → Input
  | selectUsername : Nat → JStr → Input
  | msg : Nat → JStr → JStr → JStr → Bool → Input
  | disconnect : Nat → Input
deriving DecidableEq, Repr

/-- Dispatch one inbound occurrence to its handler.  In `Input.msg` the
first `JStr` is the client-supplied `data.username`, which
`handleMessage` never reads. -/
def step (st : ServerState) : Input → ServerState × List Event
  | Input.connect sid readOk => handleConnection st sid readOk
  | Input.selectUsername sid u => handleUsernameSelection st sid u
  | Input.msg sid _ pm pt appendOk => handleMessage st sid pm pt appendOk
  | Input.disconnect sid => handleDisconnection st sid

/-- Run a sequence of inbound occurrences, concatenating the emitted
events in order. -/
def run (st : ServerState) : List Input → ServerState × List Event
  | [] => (st, [])
  | i :: rest =>
    let (st1, evs) := step st i
    let (st2, evs2) := run st1 rest
    (st2, evs ++ evs2)

/-- Modelled from the spec: the `load_more_messages` handler is not under
`src/` (only its client caller and the spec describe it).  Per spec
section 4.4, given the store and a request carrying `offset` (the number
of most-recent messages the client has already consumed) and `limit`, it
returns up to `limit` messages immediately older than the consumed set,
in chronological order within the page, a `hasMore` flag (older messages
remain beyond this page), and the new total-consumed offset. -/
def loadMorePage (store : List Message) (offset limit : Nat) :
    List Message × Bool × Nat :=
  let chron := chronological store
  let remaining := chron.length - offset
  let page := (chron.take remaining).drop (remaining - limit)
  (page, decide (limit < remaining), offset + page.length)

/-- Modelled from the spec: the `load_more_messages` handler answers the
requesting connection with a single `paginated_messages` event carrying
the page, the `hasMore` flag and the new offset; the store is not
modified. -/
def handleLoadMore (st : ServerState) (sid : Nat) (offset limit : Nat) :
    ServerState × List Event :=
  let r := loadMorePage st.store offset limit
  (st, [Event.paginatedMessages sid r.1 r.2.1 r.2.2])

/-- Fuelled iteration of `loadMorePage`: fetch a page at `offset`, and
while `hasMore` holds keep fetching at the returned offset, concatenating
the pages oldest-first (each later-fetched, older page in front, the way
the client prepends them). -/
def collectPagesAux (store : List Message) (limit : Nat) :
    Nat → Nat → List Message
  | 0, _ => []
  | fuel + 1, offset =>
    let r := loadMorePage store offset limit
    if r.2.1 then collectPagesAux store limit fuel r.2.2 ++ r.1 else r.1

/-- All messages obtained by paginating from `offset` until
`hasMore = false`, assembled oldest-first. -/
def collectPages (store : List Message) (limit offset : Nat) : List Message :=
  collectPagesAux store limit store.length offset

/-- Modelled from the spec: the `clear_history` handler is not under
`src/` (only its client caller and the spec describe it).  Per spec
section 4.4 it removes all messages from the store and broadcasts a
`history_cleared` notice naming the triggering session to every live
session. -/
def handleClearHistory (st : ServerState) (sid : Nat) :
    ServerState × List Event :=
  ({ st with store := [] },
   [Event.historyCleared (getUsername st.sessions sid)])

/-- The registry/session consistency the code actually maintains: every
live session whose `socket.username` is JS-truthy has that name in
`activeUsernames`, and no two live sessions with different socket ids
hold the same truthy name.  (The registry may also contain entries that
no live session holds.) -/
def namesConsistent (st : ServerState) : Prop :=
  (∀ s ∈ st.sessions, s.username.truthy = true →
      s.username ∈ st.activeUsernames) ∧
  (∀ s1 ∈ st.sessions, ∀ s2 ∈ st.sessions,
      s1.username.truthy = true → s1.username = s2.username →
      s1.sid = s2.sid)

/-- The registry is a JS `Set`: `contains` agrees with membership. -/
theorem contains_eq_false_iff (l : List JStr) (u : JStr) :
    l.contains u = false ↔ u ∉ l := by
  simp [List.contains, List.elem_eq_mem]

/-- C2: a `message` event from a session whose `socket.username` is unset
is answered by a single `error` event addressed to that connection only,
appends nothing to the store, broadcasts nothing, and leaves the server
state (registry, sessions, store) unchanged. -/
theorem C2_unnamed_send_rejected (st : ServerState) (sid : Nat)
    (pm pt : JStr) (appendOk : Bool)
    (h : getUsername st.sessions sid = JStr.undef) :
    (handleMessage st sid pm pt appendOk).1 = st ∧
    (handleMessage st sid pm pt appendOk).2 =
      [Event.errorEvt sid "Please select a username before sending messages."] ∧
    (Event.errorEvt sid
        "Please select a username before sending messages.").recipients st.live
      = st.live.filter (· = sid) := by
  refine ⟨?_, ?_, ?_⟩ <;>
    simp [handleMessage, h, JStr.truthy, Event.recipients]

/-- C2 witness: the concrete server with one unnamed connection. -/
theorem C2_unnamed_send_rejected_witness :
    (handleMessage ⟨[], [⟨1, JStr.undef⟩], []⟩ 1 (JStr.str "hi")
        (JStr.str "t") true).1 = ⟨[], [⟨1, JStr.undef⟩], []⟩ ∧
    (handleMessage ⟨[], [⟨1, JStr.undef⟩], []⟩ 1 (JStr.str "hi")
        (JStr.str "t") true).2 =
      [Event.errorEvt 1 "Please select a username before sending messages."] := by
  have h := C2_unnamed_send_rejected ⟨[], [⟨1, JStr.undef⟩], []⟩ 1
    (JStr.str "hi") (JStr.str "t") true (by decide)
  exact ⟨h.1, h.2.1⟩

/-- C3: a message accepted from a session with a JS-truthy claimed name is
stored and broadcast (to every live session) carrying exactly that name,
and the handler output is independent of the client-supplied `username`
field of the payload. -/
theorem C3_username_not_spoofable (st : ServerState) (sid : Nat)
    (pm pt : JStr) (s : String)
    (h : getUsername st.sessions sid = JStr.str s) (hs : s ≠ "") :
    (handleMessage st sid pm pt true).1.store =
      (⟨JStr.str s, pm, pt⟩ : Message) :: st.store ∧
    (handleMessage st sid pm pt true).2 =
      [Event.messageEvt ⟨JStr.str s, pm, pt⟩] ∧
    (Event.messageEvt ⟨JStr.str s, pm, pt⟩).recipients st.live = st.live ∧
    ∀ (pu1 pu2 : JStr) (appendOk : Bool),
      step st (Input.msg sid pu1 pm pt appendOk)
        = step st (Input.msg sid pu2 pm pt appendOk) := by
  refine ⟨?_, ?_, ?_, fun pu1 pu2 appendOk => rfl⟩ <;>
    simp [handleMessage, h, JStr.truthy, hs, Event.recipients]

/-- C3 witness: the concrete server with one connection named `ada`. -/
theorem C3_username_not_spoofable_witness :
    (handleMessage ⟨[JStr.str "ada"], [⟨1, JStr.str "ada"⟩], []⟩ 1
        (JStr.str "hi") (JStr.str "t") true).1.store =
      [(⟨JStr.str "ada", JStr.str "hi", JStr.str "t"⟩ : Message)] ∧
    step ⟨[JStr.str "ada"], [⟨1, JStr.str "ada"⟩], []⟩
        (Input.msg 1 (JStr.str "mallory") (JStr.str "hi") (JStr.str "t") true)
      = step ⟨[JStr.str "ada"], [⟨1, JStr.str "ada"⟩], []⟩
        (Input.msg 1 (JStr.str "bob") (JStr.str "hi") (JStr.str "t") true) := by
  have h := C3_username_not_spoofable
    ⟨[JStr.str "ada"], [⟨1, JStr.str "ada"⟩], []⟩ 1
    (JStr.str "hi") (JStr.str "t") "ada" (by decide) (by decide)
  exact ⟨h.1, h.2.2.2 (JStr.str "mallory") (JStr.str "bob") true⟩

/-- C4: when the store append fails, the state is unchanged, the only
emitted event is an `error` addressed to the sender alone, and (in
general) a failed append never produces a `message` broadcast. -/
theorem C4_no_broadcast_on_store_failure (st : ServerState) (sid : Nat)
    (pm pt : JStr) (s : String)
    (h : getUsername st.sessions sid = JStr.str s) (hs : s ≠ "") :
    (handleMessage st sid pm pt false).1 = st ∧
    (handleMessage st sid pm pt false).2 =
      [Event.errorEvt sid "Failed to send message. Please try again."] ∧
    (Event.errorEvt sid
        "Failed to send message. Please try again.").recipients st.live
      = st.live.filter (· = sid) ∧
    ∀ (st2 : ServerState) (sid2 : Nat) (pm2 pt2 : JStr) (m : Message),
      Event.messageEvt m ∉ (handleMessage st2 sid2 pm2 pt2 false).2 := by
  refine ⟨?_, ?_, ?_, ?_⟩
  · simp [handleMessage, h, JStr.truthy, hs]
  · simp [handleMessage, h, JStr.truthy, hs]
  · simp [Event.recipients]
  · intro st2 sid2 pm2 pt2 m hm
    by_cases ht : (getUsername st2.sessions sid2).truthy <;>
      simp [handleMessage, ht] at hm

/-- C4 witness: the concrete server with one connection named `ada` and a
failing append. -/
theorem C4_no_broadcast_on_store_failure_witness :
    (handleMessage ⟨[JStr.str "ada"], [⟨1, JStr.str "ada"⟩], []⟩ 1
        (JStr.str "hi") (JStr.str "t") false).1
      = ⟨[JStr.str "ada"], [⟨1, JStr.str "ada"⟩], []⟩ ∧
    (handleMessage ⟨[JStr.str "ada"], [⟨1, JStr.str "ada"⟩], []⟩ 1
        (JStr.str "hi") (JStr.str "t") false).2 =
      [Event.errorEvt 1 "Failed to send message. Please try again."] := by
  have h := C4_no_broadcast_on_store_failure
    ⟨[JStr.str "ada"], [⟨1, JStr.str "ada"⟩], []⟩ 1
    (JStr.str "hi") (JStr.str "t") "ada" (by decide) (by decide)
  exact ⟨h.1, h.2.1⟩

/-- C5: when two distinct sessions claim the same currently-free name,
processed in either order (the ids are arbitrary), the first processed
claim succeeds — acceptance to that connection only and a `user_joined`
notice to every other live session — and the second is rejected with a
`username_taken` event to that connection only, with no broadcast and no
change to the registry or any other state. -/
theorem C5_concurrent_claims_exclusive (st : ServerState) (a b : Nat)
    (u : JStr) (hfree : st.activeUsernames.contains u = false)
    (_hab : a ≠ b) :
    (handleUsernameSelection st a u).2 =
      [Event.usernameAccepted a u, Event.userJoined a u] ∧
    (Event.usernameAccepted a u).recipients st.live = st.live.filter (· = a) ∧
    (Event.userJoined a u).recipients st.live = st.live.filter (· ≠ a) ∧
    (handleUsernameSelection (handleUsernameSelection st a u).1 b u).2 =
      [Event.usernameTaken b] ∧
    (handleUsernameSelection (handleUsernameSelection st a u).1 b u).1 =
      (handleUsernameSelection st a u).1 ∧
    (Event.usernameTaken b).recipients st.live = st.live.filter (· = b) := by
  have hf : u ∉ st.activeUsernames := (contains_eq_false_iff _ _).mp hfree
  refine ⟨?_, rfl, rfl, ?_, ?_, rfl⟩ <;>
    simp [handleUsernameSelection, hf]

/-- C5 witness: sessions 1 and 2 both claim `ada` on a fresh server with
both connected. -/
theorem C5_concurrent_claims_exclusive_witness :
    (handleUsernameSelection ⟨[], [⟨1, JStr.undef⟩, ⟨2, JStr.undef⟩], []⟩ 1
        (JStr.str "ada")).2 =
      [Event.usernameAccepted 1 (JStr.str "ada"),
       Event.userJoined 1 (JStr.str "ada")] ∧
    (handleUsernameSelection
        (handleUsernameSelection ⟨[], [⟨1, JStr.undef⟩, ⟨2, JStr.undef⟩], []⟩ 1
          (JStr.str "ada")).1 2 (JStr.str "ada")).2 =
      [Event.usernameTaken 2] := by
  have h := C5_concurrent_claims_exclusive
    ⟨[], [⟨1, JStr.undef⟩, ⟨2, JStr.undef⟩], []⟩ 1 2 (JStr.str "ada")
    (by decide) (by decide)
  exact ⟨h.1, h.2.2.2.1⟩

/-- C10: `handleUsernameSelection` rejects exactly when the requested
value is already in the registry — no content validation — so an absent
empty-string or `undefined` value is accepted, added to the registry and
announced via `user_joined`, and a second claim of the same value is then
rejected as taken with no state change. -/
theorem C10_no_content_validation (st : ServerState) (sid sid2 : Nat)
    (u : JStr) (hfree : st.activeUsernames.contains u = false) :
    (∀ v : JStr, (handleUsernameSelection st sid v).2 = [Event.usernameTaken sid]
        ↔ st.activeUsernames.contains v = true) ∧
    (handleUsernameSelection st sid u).2 =
      [Event.usernameAccepted sid u, Event.userJoined sid u] ∧
    u ∈ (handleUsernameSelection st sid u).1.activeUsernames ∧
    (Event.userJoined sid u).recipients st.live = st.live.filter (· ≠ sid) ∧
    (handleUsernameSelection (handleUsernameSelection st sid u).1 sid2 u).2 =
      [Event.usernameTaken sid2] ∧
    (handleUsernameSelection (handleUsernameSelection st sid u).1 sid2 u).1 =
      (handleUsernameSelection st sid u).1 := by
  have hf : u ∉ st.activeUsernames := (contains_eq_false_iff _ _).mp hfree
  refine ⟨?_, ?_, ?_, rfl, ?_, ?_⟩
  · intro v
    by_cases hv : v ∈ st.activeUsernames <;>
      simp [handleUsernameSelection, hv, List.contains, List.elem_eq_mem]
  all_goals simp [handleUsernameSelection, hf]

/-- C10 witness: a claim carrying no username field at all
(`undefined`) is accepted on a fresh server and a second such claim is
rejected as taken. -/
theorem C10_no_content_validation_witness :
    (handleUsernameSelection ⟨[], [⟨1, JStr.undef⟩, ⟨2, JStr.undef⟩], []⟩ 1
        JStr.undef).2 =
      [Event.usernameAccepted 1 JStr.undef, Event.userJoined 1 JStr.undef] ∧
    JStr.undef ∈ (handleUsernameSelection
        ⟨[], [⟨1, JStr.undef⟩, ⟨2, JStr.undef⟩], []⟩ 1
        JStr.undef).1.activeUsernames ∧
    (handleUsernameSelection
        (handleUsernameSelection ⟨[], [⟨1, JStr.undef⟩, ⟨2, JStr.undef⟩], []⟩ 1
          JStr.undef).1 2 JStr.undef).2 = [Event.usernameTaken 2] := by
  have h := C10_no_content_validation
    ⟨[], [⟨1, JStr.undef⟩, ⟨2, JStr.undef⟩], []⟩ 1 2 JStr.undef (by decide)
  exact ⟨h.2.1, h.2.2.1, h.2.2.2.2.1⟩

/-- C1 counterexample: after `ada` stores "one" and then "two", the
backlog pushed to a newly connected session carries the messages
newest-first — `lpush` prepends and `lrange 0 -1` is read head-first —
which is not the chronological (oldest-first) order the claim states. -/
theorem C1_backlog_order_counterexample :
    (run ServerState.init
        [Input.connect 1 true, Input.selectUsername 1 (JStr.str "ada"),
         Input.msg 1 JStr.undef (JStr.str "one") (JStr.str "t1") true,
         Input.msg 1 JStr.undef (JStr.str "two") (JStr.str "t2") true,
         Input.connect 2 true]).2.getLast? =
      some (Event.historicalMessages 2
        [⟨JStr.str "ada", JStr.str "two", JStr.str "t2"⟩,
         ⟨JStr.str "ada", JStr.str "one", JStr.str "t1"⟩]) ∧
    chronological (run ServerState.init
        [Input.connect 1 true, Input.selectUsername 1 (JStr.str "ada"),
         Input.msg 1 JStr.undef (JStr.str "one") (JStr.str "t1") true,
         Input.msg 1 JStr.undef (JStr.str "two") (JStr.str "t2") true,
         Input.connect 2 true]).1.store =
      [⟨JStr.str "ada", JStr.str "one", JStr.str "t1"⟩,
       ⟨JStr.str "ada", JStr.str "two", JStr.str "t2"⟩] ∧
    ([(⟨JStr.str "ada", JStr.str "two", JStr.str "t2"⟩ : Message),
      ⟨JStr.str "ada", JStr.str "one", JStr.str "t1"⟩] : List Message) ≠
      [⟨JStr.str "ada", JStr.str "one", JStr.str "t1"⟩,
       ⟨JStr.str "ada", JStr.str "two", JStr.str "t2"⟩] := by
  refine ⟨rfl, rfl, by decide⟩

/-- C1 (amended): on every new connection the complete stored history is
pushed as a single `historical_messages` event to that connection only,
in reverse chronological order (most recent message first), and this
event precedes every event produced by subsequently processed inputs. -/
theorem C1_backlog_single_event_newest_first (st : ServerState) (sid : Nat)
    (rest : List Input) :
    (step st (Input.connect sid true)).2 =
      [Event.historicalMessages sid ((chronological st.store).reverse)] ∧
    (Event.historicalMessages sid ((chronological st.store).reverse)).recipients
        (step st (Input.connect sid true)).1.live
      = (step st (Input.connect sid true)).1.live.filter (· = sid) ∧
    (run st (Input.connect sid true :: rest)).2 =
      Event.historicalMessages sid ((chronological st.store).reverse) ::
        (run (step st (Input.connect sid true)).1 rest).2 := by
  refine ⟨?_, rfl, ?_⟩
  · simp [step, handleConnection, loadHistoricalMessages, chronological]
  · simp [run, step, handleConnection, loadHistoricalMessages, chronological]

/-- C6 counterexample: session 1 successfully claims the empty string (it
is Named: it received `username_accepted`), yet its disconnect removes
nothing from the registry and broadcasts nothing — `if (socket.username)`
is JS-falsy on `""` — and a later claim of that exact name by session 2
is rejected as taken. -/
theorem C6_empty_name_not_released_counterexample :
    (run ServerState.init
        [Input.connect 1 true, Input.selectUsername 1 (JStr.str "")]).2 =
      [Event.historicalMessages 1 [],
       Event.usernameAccepted 1 (JStr.str ""),
       Event.userJoined 1 (JStr.str "")] ∧
    (step (run ServerState.init
        [Input.connect 1 true, Input.selectUsername 1 (JStr.str "")]).1
        (Input.disconnect 1)).2 = [] ∧
    (run ServerState.init
        [Input.connect 1 true, Input.selectUsername 1 (JStr.str ""),
         Input.disconnect 1]).1.activeUsernames = [JStr.str ""] ∧
    (run ServerState.init
        [Input.connect 1 true, Input.selectUsername 1 (JStr.str ""),
         Input.disconnect 1, Input.connect 2 true,
         Input.selectUsername 2 (JStr.str "")]).2.getLast? =
      some (Event.usernameTaken 2) := by
  refine ⟨rfl, rfl, rfl, rfl⟩

/-- C6 (amended): disconnecting a session whose claimed name is a
non-empty string removes that name from the registry and broadcasts
`user_left` to every other live session, and a subsequent claim of that
exact name by a different session succeeds; a disconnect of a session
whose `socket.username` is unset does neither (as does one whose claimed
value is JS-falsy, per the counterexample). -/
theorem C6_disconnect_releases_and_roundtrip (st : ServerState)
    (sid sid2 sid3 : Nat) (s : String)
    (h : getUsername st.sessions sid = JStr.str s) (hs : s ≠ "")
    (hcount : st.activeUsernames.count (JStr.str s) ≤ 1)
    (h3 : getUsername st.sessions sid3 = JStr.undef) :
    (handleDisconnection st sid).1.activeUsernames
      = st.activeUsernames.erase (JStr.str s) ∧
    (handleDisconnection st sid).2 = [Event.userLeft sid (JStr.str s)] ∧
    (Event.userLeft sid (JStr.str s)).recipients st.live
      = st.live.filter (· ≠ sid) ∧
    (handleUsernameSelection (handleDisconnection st sid).1 sid2
        (JStr.str s)).2 =
      [Event.usernameAccepted sid2 (JStr.str s),
       Event.userJoined sid2 (JStr.str s)] ∧
    (handleDisconnection st sid3).1.activeUsernames = st.activeUsernames ∧
    (handleDisconnection st sid3).2 = [] := by
  have h1 : JStr.str s ∉ st.activeUsernames.erase (JStr.str s) := by
    have hc := List.count_erase_self (JStr.str s) st.activeUsernames
    have h0 : (st.activeUsernames.erase (JStr.str s)).count (JStr.str s) = 0 := by
      omega
    exact List.count_eq_zero.mp h0
  refine ⟨?_, ?_, rfl, ?_, ?_, ?_⟩
  · simp [handleDisconnection, h, JStr.truthy, hs]
  · simp [handleDisconnection, h, JStr.truthy, hs]
  · simp [handleDisconnection, h, JStr.truthy, hs, handleUsernameSelection, h1]
  · simp [handleDisconnection, h3, JStr.truthy]
  · simp [handleDisconnection, h3, JStr.truthy]

/-- C6 witness: `ada` (session 1) disconnects and session 2 re-claims the
name, with session 3 unnamed. -/
theorem C6_disconnect_releases_and_roundtrip_witness :
    (handleDisconnection
        ⟨[JStr.str "ada"], [⟨1, JStr.str "ada"⟩, ⟨2, JStr.undef⟩,
          ⟨3, JStr.undef⟩], []⟩ 1).1.activeUsernames
      = ([JStr.str "ada"] : List JStr).erase (JStr.str "ada") ∧
    (handleUsernameSelection (handleDisconnection
        ⟨[JStr.str "ada"], [⟨1, JStr.str "ada"⟩, ⟨2, JStr.undef⟩,
          ⟨3, JStr.undef⟩], []⟩ 1).1 2 (JStr.str "ada")).2 =
      [Event.usernameAccepted 2 (JStr.str "ada"),
       Event.userJoined 2 (JStr.str "ada")] ∧
    (handleDisconnection
        ⟨[JStr.str "ada"], [⟨1, JStr.str "ada"⟩, ⟨2, JStr.undef⟩,
          ⟨3, JStr.undef⟩], []⟩ 3).2 = [] := by
  have h := C6_disconnect_releases_and_roundtrip
    ⟨[JStr.str "ada"], [⟨1, JStr.str "ada"⟩, ⟨2, JStr.undef⟩,
      ⟨3, JStr.undef⟩], []⟩ 1 2 3 "ada"
    (by decide) (by decide) (by decide) (by decide)
  exact ⟨h.1, h.2.2.2.1, h.2.2.2.2.2⟩

/-- C9: clearing the history empties the store, broadcasts a
`history_cleared` event naming the triggering session to every live
session, and any subsequent initial-backlog fetch for a new connection
returns the empty sequence. -/
theorem C9_clear_history_empties_backlog (st : ServerState)
    (sid sid2 : Nat) :
    (handleClearHistory st sid).1.store = [] ∧
    (handleClearHistory st sid).2 =
      [Event.historyCleared (getUsername st.sessions sid)] ∧
    (Event.historyCleared (getUsername st.sessions sid)).recipients st.live
      = st.live ∧
    (handleConnection (handleClearHistory st sid).1 sid2 true).2 =
      [Event.historicalMessages sid2 []] := by
  refine ⟨rfl, rfl, rfl, ?_⟩
  simp [handleConnection, loadHistoricalMessages, handleClearHistory]

/-- `setUsername` rewrites the session `find?` locates for `sid`. -/
theorem find?_setUsername (l : List Session) (sid : Nat) (u : JStr) :
    (setUsername l sid u).find? (fun t => t.sid = sid)
      = (l.find? (fun t => t.sid = sid)).map
          (fun _ => (⟨sid, u⟩ : Session)) := by
  induction l with
  | nil => rfl
  | cons a l ih =>
    by_cases ha : a.sid = sid
    · simp [setUsername, List.find?, ha]
    · simp only [setUsername, List.map] at ih ⊢
      simp [List.find?, ha, ih]

/-- A session with a string-valued username is present in the list. -/
theorem getUsername_mem (l : List Session) (sid : Nat) (s : String)
    (h : getUsername l sid = JStr.str s) :
    ∃ s0 ∈ l, s0.sid = sid ∧ s0.username = JStr.str s := by
  unfold getUsername at h
  cases hf : l.find? (fun t => t.sid = sid) with
  | none => rw [hf] at h; simp at h
  | some s0 =>
    rw [hf] at h
    exact ⟨s0, List.mem_of_find?_eq_some hf,
      by simpa using List.find?_some hf, h⟩

/-- After `setUsername`, the session's username reads back as assigned. -/
theorem getUsername_setUsername (l : List Session) (sid : Nat) (u : JStr)
    (s : String) (h : getUsername l sid = JStr.str s) :
    getUsername (setUsername l sid u) sid = u := by
  unfold getUsername at h ⊢
  rw [find?_setUsername]
  cases hf : l.find? (fun t => t.sid = sid) with
  | none => rw [hf] at h; simp at h
  | some s0 => simp

/-- The state produced by the connection handler: the new unnamed session
is appended; the backlog read does not change state. -/
theorem handleConnection_state (st : ServerState) (sid : Nat) (ok : Bool) :
    (handleConnection st sid ok).1
      = { st with sessions := st.sessions ++ [⟨sid, JStr.undef⟩] } := by
  cases ok <;> rfl

/-- `handleUsernameSelection` preserves `namesConsistent`. -/
theorem namesConsistent_claim (st : ServerState) (sid : Nat) (u : JStr)
    (hinv : namesConsistent st) :
    namesConsistent (handleUsernameSelection st sid u).1 := by
  obtain ⟨h1, h2⟩ := hinv
  by_cases hc : u ∈ st.activeUsernames
  · simpa [handleUsernameSelection, hc, namesConsistent] using ⟨h1, h2⟩
  · simp only [handleUsernameSelection, List.contains, List.elem_eq_mem, hc,
      decide_eq_true_eq, if_false, decide_False, Bool.false_eq_true]
    constructor
    · intro s' hs' ht'
      rcases List.mem_map.mp hs' with ⟨s, hsmem, rfl⟩
      by_cases hsid : s.sid = sid
      · simp [hsid]
      · simp only [hsid, if_false] at ht' ⊢
        exact List.mem_cons_of_mem _ (h1 s hsmem ht')
    · intro s1' h1' s2' h2' ht1 heq
      rcases List.mem_map.mp h1' with ⟨s1, hm1, rfl⟩
      rcases List.mem_map.mp h2' with ⟨s2, hm2, rfl⟩
      by_cases ha : s1.sid = sid <;> by_cases hb : s2.sid = sid
      · simp [ha, hb]
      · exfalso
        simp only [ha, if_true, hb, if_false] at ht1 heq
        exact hc (heq ▸ h1 s2 hm2 (heq ▸ ht1))
      · exfalso
        simp only [ha, if_false, hb, if_true] at ht1 heq
        exact hc (heq ▸ h1 s1 hm1 ht1)
      · simp only [ha, if_false, hb, if_false] at ht1 heq ⊢
        exact h2 s1 hm1 s2 hm2 ht1 heq

/-- `handleMessage` preserves `namesConsistent` (it only touches the
store). -/
theorem namesConsistent_message (st : ServerState) (sid : Nat)
    (pm pt : JStr) (ok : Bool) (hinv : namesConsistent st) :
    namesConsistent (handleMessage st sid pm pt ok).1 := by
  obtain ⟨h1, h2⟩ := hinv
  by_cases ht : (getUsername st.sessions sid).truthy <;> cases ok <;>
    simp [handleMessage, ht, namesConsistent] <;> exact ⟨h1, h2⟩

/-- `handleDisconnection` preserves `namesConsistent`. -/
theorem namesConsistent_disconnect (st : ServerState) (sid : Nat)
    (hinv : namesConsistent st) :
    namesConsistent (handleDisconnection st sid).1 := by
  obtain ⟨h1, h2⟩ := hinv
  by_cases ht : (getUsername st.sessions sid).truthy
  · cases hf : st.sessions.find? (fun t => t.sid = sid) with
    | none =>
      unfold getUsername at ht
      rw [hf] at ht
      simp [JStr.truthy] at ht
    | some s0 =>
      have hu : getUsername st.sessions sid = s0.username := by
        unfold getUsername; rw [hf]
      have hs0mem : s0 ∈ st.sessions := List.mem_of_find?_eq_some hf
      have hs0sid : s0.sid = sid := by simpa using List.find?_some hf
      rw [hu] at ht
      have hstate : (handleDisconnection st sid).1
          = ⟨st.activeUsernames.erase s0.username,
             removeSession st.sessions sid, st.store⟩ := by
        simp [handleDisconnection, hu, ht]
      rw [hstate]
      constructor
      · intro s hs hts
        have hsm : s ∈ st.sessions ∧ ¬s.sid = sid := by
          have hx := hs
          simp only [removeSession, List.mem_filter, decide_eq_true_eq] at hx
          exact hx
        have hne : s.username ≠ s0.username := by
          intro hequ
          exact hsm.2 ((h2 s hsm.1 s0 hs0mem hts hequ).trans hs0sid)
        exact (List.mem_erase_of_ne hne).mpr (h1 s hsm.1 hts)
      · intro s1 hm1 s2 hm2 ht1 heq
        have hx1 : s1 ∈ st.sessions ∧ ¬s1.sid = sid := by
          simpa only [removeSession, List.mem_filter, decide_eq_true_eq]
            using hm1
        have hx2 : s2 ∈ st.sessions ∧ ¬s2.sid = sid := by
          simpa only [removeSession, List.mem_filter, decide_eq_true_eq]
            using hm2
        exact h2 s1 hx1.1 s2 hx2.1 ht1 heq
  · have hstate : (handleDisconnection st sid).1
        = ⟨st.activeUsernames, removeSession st.sessions sid, st.store⟩ := by
      simp [handleDisconnection, ht]
    rw [hstate]
    constructor
    · intro s hs hts
      have hx : s ∈ st.sessions ∧ ¬s.sid = sid := by
        simpa only [removeSession, List.mem_filter, decide_eq_true_eq] using hs
      exact h1 s hx.1 hts
    · intro s1 hm1 s2 hm2 ht1 heq
      have hx1 : s1 ∈ st.sessions ∧ ¬s1.sid = sid := by
        simpa only [removeSession, List.mem_filter, decide_eq_true_eq] using hm1
      have hx2 : s2 ∈ st.sessions ∧ ¬s2.sid = sid := by
        simpa only [removeSession, List.mem_filter, decide_eq_true_eq] using hm2
      exact h2 s1 hx1.1 s2 hx2.1 ht1 heq

/-- The connection handler preserves `namesConsistent`. -/
theorem namesConsistent_connect (st : ServerState) (sid : Nat) (ok : Bool)
    (hinv : namesConsistent st) :
    namesConsistent (handleConnection st sid ok).1 := by
  obtain ⟨h1, h2⟩ := hinv
  rw [handleConnection_state]
  constructor
  · intro s hs hts
    rcases List.mem_append.mp hs with hm | hm
    · exact h1 s hm hts
    · simp at hm
      rw [hm] at hts
      simp [JStr.truthy] at hts
  · intro s1 hm1 s2 hm2 ht1 heq
    rcases List.mem_append.mp hm1 with ha | ha <;>
      rcases List.mem_append.mp hm2 with hb | hb
    · exact h2 s1 ha s2 hb ht1 heq
    · simp at hb
      rw [hb] at heq
      rw [heq] at ht1
      simp [JStr.truthy] at ht1
    · simp at ha
      rw [ha] at ht1
      simp [JStr.truthy] at ht1
    · simp at ha hb
      rw [ha, hb]

/-- Every inbound occurrence preserves `namesConsistent`. -/
theorem namesConsistent_step (st : ServerState) (i : Input)
    (hinv : namesConsistent st) : namesConsistent (step st i).1 := by
  cases i with
  | connect sid ok => exact namesConsistent_connect st sid ok hinv
  | selectUsername sid u => exact namesConsistent_claim st sid u hinv
  | msg sid pu pm pt ok => exact namesConsistent_message st sid pm pt ok hinv
  | disconnect sid => exact namesConsistent_disconnect st sid hinv

/-- Every run preserves `namesConsistent`. -/
theorem namesConsistent_run (st : ServerState) (inputs : List Input)
    (hinv : namesConsistent st) : namesConsistent (run st inputs).1 := by
  induction inputs generalizing st with
  | nil => exact hinv
  | cons i rest ih =>
    have hstep := namesConsistent_step st i hinv
    have : (run st (i :: rest)).1 = (run (step st i).1 rest).1 := by
      simp [run]
    rw [this]
    exact ih (step st i).1 hstep

/-- C7 counterexample: session 1 claims `ada`, then a second
`select_username` with the free name `bob` is accepted — its
`claimedName` changes to `bob` and the registry afterwards still holds
`ada`, which no live session holds (so the one-holder-per-name invariant
fails as well). -/
theorem C7_claimedName_reassigned_counterexample :
    getUsername (run ServerState.init
        [Input.connect 1 true,
         Input.selectUsername 1 (JStr.str "ada")]).1.sessions 1
      = JStr.str "ada" ∧
    getUsername (run ServerState.init
        [Input.connect 1 true, Input.selectUsername 1 (JStr.str "ada"),
         Input.selectUsername 1 (JStr.str "bob")]).1.sessions 1
      = JStr.str "bob" ∧
    (run ServerState.init
        [Input.connect 1 true, Input.selectUsername 1 (JStr.str "ada"),
         Input.selectUsername 1 (JStr.str "bob")]).1.activeUsernames
      = [JStr.str "bob", JStr.str "ada"] ∧
    (run ServerState.init
        [Input.connect 1 true, Input.selectUsername 1 (JStr.str "ada"),
         Input.selectUsername 1 (JStr.str "bob")]).1.sessions
      = [⟨1, JStr.str "bob"⟩] ∧
    (run ServerState.init
        [Input.connect 1 true, Input.selectUsername 1 (JStr.str "ada"),
         Input.selectUsername 1 (JStr.str "bob")]).2.getLast? =
      some (Event.userJoined 1 (JStr.str "bob")) := by
  refine ⟨rfl, rfl, rfl, rfl, rfl⟩

/-- C7 (amended): `claimedName` is not write-once — a Named session's
subsequent `select_username` naming any currently-free value is accepted
and reassigns it, leaving the old name stranded in the registry.  What
every operation does preserve is the weaker invariant `namesConsistent`:
each live session's truthy claimed name is registered and held by no
other live session (but a registered name may have no live holder). -/
theorem C7_reassignment_and_weak_invariant (st : ServerState) (sid : Nat)
    (u : JStr) (s : String)
    (h : getUsername st.sessions sid = JStr.str s) (hs : s ≠ "")
    (hinv : namesConsistent st)
    (hfree : st.activeUsernames.contains u = false) :
    (handleUsernameSelection st sid u).2 =
      [Event.usernameAccepted sid u, Event.userJoined sid u] ∧
    getUsername (handleUsernameSelection st sid u).1.sessions sid = u ∧
    u ≠ JStr.str s ∧
    JStr.str s ∈ (handleUsernameSelection st sid u).1.activeUsernames ∧
    (∀ (st2 : ServerState) (i : Input), namesConsistent st2 →
      namesConsistent (step st2 i).1) ∧
    (∀ (st2 : ServerState) (inputs : List Input), namesConsistent st2 →
      namesConsistent (run st2 inputs).1) := by
  have hf : u ∉ st.activeUsernames := (contains_eq_false_iff _ _).mp hfree
  rcases getUsername_mem st.sessions sid s h with ⟨s0, hs0mem, hs0sid, hs0u⟩
  have hmem : JStr.str s ∈ st.activeUsernames := by
    have := hinv.1 s0 hs0mem
    rw [hs0u] at this
    exact this (by simp [JStr.truthy, hs])
  have hstate : (handleUsernameSelection st sid u).1
      = ⟨u :: st.activeUsernames, setUsername st.sessions sid u, st.store⟩ := by
    simp [handleUsernameSelection, hf]
  refine ⟨by simp [handleUsernameSelection, hf], ?_, ?_, ?_,
    namesConsistent_step, namesConsistent_run⟩
  · rw [hstate]
    exact getUsername_setUsername st.sessions sid u s h
  · intro he
    exact hf (he ▸ hmem)
  · rw [hstate]
    exact List.mem_cons_of_mem _ hmem

/-- C7 witness: `ada` (session 1) re-claims as `bob` on a concrete
consistent state, and a concrete step preserves `namesConsistent`. -/
theorem C7_reassignment_and_weak_invariant_witness :
    (handleUsernameSelection ⟨[JStr.str "ada"], [⟨1, JStr.str "ada"⟩], []⟩ 1
        (JStr.str "bob")).2 =
      [Event.usernameAccepted 1 (JStr.str "bob"),
       Event.userJoined 1 (JStr.str "bob")] ∧
    getUsername (handleUsernameSelection
        ⟨[JStr.str "ada"], [⟨1, JStr.str "ada"⟩], []⟩ 1
        (JStr.str "bob")).1.sessions 1 = JStr.str "bob" ∧
    JStr.str "ada" ∈ (handleUsernameSelection
        ⟨[JStr.str "ada"], [⟨1, JStr.str "ada"⟩], []⟩ 1
        (JStr.str "bob")).1.activeUsernames ∧
    namesConsistent (step ⟨[JStr.str "ada"], [⟨1, JStr.str "ada"⟩], []⟩
        (Input.disconnect 1)).1 := by
  have h := C7_reassignment_and_weak_invariant
    ⟨[JStr.str "ada"], [⟨1, JStr.str "ada"⟩], []⟩ 1 (JStr.str "bob") "ada"
    (by decide) (by decide)
    (by constructor <;> decide) (by decide)
  exact ⟨h.1, h.2.1, h.2.2.2.1,
    h.2.2.2.2.1 ⟨[JStr.str "ada"], [⟨1, JStr.str "ada"⟩], []⟩
      (Input.disconnect 1) (by constructor <;> decide)⟩

/-- Each page is a bounded chronological slice of the store, and the
returned offset is the old offset plus the page size; `hasMore` holds
exactly when messages older than this page remain. -/
theorem loadMorePage_spec (store : List Message) (offset limit : Nat) :
    (loadMorePage store offset limit).1.length ≤ limit ∧
    (∃ pre post, pre ++ (loadMorePage store offset limit).1 ++ post
        = chronological store) ∧
    (loadMorePage store offset limit).2.2
      = offset + (loadMorePage store offset limit).1.length ∧
    ((loadMorePage store offset limit).2.1 = true ↔
      offset + limit < store.length) := by
  have hlen : (chronological store).length = store.length := by
    simp [chronological]
  refine ⟨?_, ?_, rfl, ?_⟩
  · simp only [loadMorePage, hlen]
    rw [List.length_drop, List.length_take]
    omega
  · simp only [loadMorePage, hlen]
    refine ⟨(chronological store).take
        ((store.length - offset) - limit),
      (chronological store).drop (store.length - offset), ?_⟩
    have h1 : (chronological store).take ((store.length - offset) - limit)
        = ((chronological store).take (store.length - offset)).take
            ((store.length - offset) - limit) := by
      rw [List.take_take]
      congr 1
      omega
    rw [h1, List.take_append_drop, List.take_append_drop]
  · simp only [loadMorePage, hlen, decide_eq_true_eq]
    omega

/-- With enough fuel and a positive page size, iterated pagination from
`offset` collects exactly the chronological store minus its most recent
`offset` messages. -/
theorem collectPagesAux_eq (store : List Message) (limit : Nat)
    (hlim : 1 ≤ limit) :
    ∀ (fuel offset : Nat), store.length - offset ≤ fuel * limit →
      collectPagesAux store limit fuel offset
        = (chronological store).take (store.length - offset) := by
  have hlen : (chronological store).length = store.length := by
    simp [chronological]
  intro fuel
  induction fuel with
  | zero =>
    intro offset hle
    simp only [Nat.zero_mul, Nat.le_zero] at hle
    simp [collectPagesAux, hle]
  | succ fuel ih =>
    intro offset hle
    by_cases hm : limit < store.length - offset
    · have hpl : (loadMorePage store offset limit).1.length = limit := by
        simp only [loadMorePage, hlen]
        rw [List.length_drop, List.length_take]
        omega
      have hno : (loadMorePage store offset limit).2.2 = offset + limit := by
        rw [(loadMorePage_spec store offset limit).2.2.1, hpl]
      have hhm : (loadMorePage store offset limit).2.1 = true := by
        rw [(loadMorePage_spec store offset limit).2.2.2]
        omega
      have hle2 : store.length - (offset + limit) ≤ fuel * limit := by
        rw [Nat.succ_mul] at hle
        omega
      simp only [collectPagesAux, hhm, if_true]
      rw [hno, ih (offset + limit) hle2]
      simp only [loadMorePage, hlen]
      rw [← Nat.sub_sub]
      have h1 : (chronological store).take ((store.length - offset) - limit)
          = ((chronological store).take (store.length - offset)).take
              ((store.length - offset) - limit) := by
        rw [List.take_take]
        congr 1
        omega
      rw [h1, List.take_append_drop]
    · have hhm : (loadMorePage store offset limit).2.1 = false := by
        have := (loadMorePage_spec store offset limit).2.2.2
        rcases hb : (loadMorePage store offset limit).2.1 with _ | _
        · rfl
        · exfalso
          rw [hb] at this
          simp only [true_iff] at this
          omega
      simp only [collectPagesAux, hhm, Bool.false_eq_true, if_false]
      simp only [loadMorePage, hlen]
      have h0 : (store.length - offset) - limit = 0 := by omega
      rw [h0, List.drop_zero]

/-- Paginating from offset 0 until `hasMore` is false yields the whole
store, oldest-first, each message exactly once. -/
theorem collectPages_exhaustive (store : List Message) (limit : Nat)
    (hlim : 1 ≤ limit) :
    collectPages store limit 0 = chronological store := by
  have hlen : (chronological store).length = store.length := by
    simp [chronological]
  unfold collectPages
  rw [collectPagesAux_eq store limit hlim store.length 0
    (by rw [Nat.sub_zero]; exact Nat.le_mul_of_pos_right store.length hlim)]
  rw [Nat.sub_zero, ← hlen, List.take_length]

/-- C8: a `load_more_messages` request is answered by one
`paginated_messages` event to the requester carrying at most `limit`
messages forming a contiguous chronological slice of the store, plus the
new total-consumed offset and a `hasMore` flag that holds exactly when
older messages remain; iterating from offset 0 until `hasMore` is false
yields every stored message exactly once, oldest-first. -/
theorem C8_pagination_exhaustive (st : ServerState) (sid : Nat)
    (offset limit : Nat) (hlim : 1 ≤ limit) :
    (handleLoadMore st sid offset limit).1 = st ∧
    (handleLoadMore st sid offset limit).2 =
      [Event.paginatedMessages sid (loadMorePage st.store offset limit).1
        (loadMorePage st.store offset limit).2.1
        (loadMorePage st.store offset limit).2.2] ∧
    (loadMorePage st.store offset limit).1.length ≤ limit ∧
    (∃ pre post, pre ++ (loadMorePage st.store offset limit).1 ++ post
        = chronological st.store) ∧
    (loadMorePage st.store offset limit).2.2
      = offset + (loadMorePage st.store offset limit).1.length ∧
    ((loadMorePage st.store offset limit).2.1 = true ↔
      offset + limit < st.store.length) ∧
    collectPages st.store limit 0 = chronological st.store := by
  obtain ⟨hl, hinf, hoff, hmore⟩ := loadMorePage_spec st.store offset limit
  exact ⟨rfl, rfl, hl, hinf, hoff, hmore,
    collectPages_exhaustive st.store limit hlim⟩

/-- C8 witness: a three-message store paged two at a time. -/
theorem C8_pagination_exhaustive_witness :
    (handleLoadMore ⟨[], [],
        [⟨JStr.str "a", JStr.str "m3", JStr.str "t3"⟩,
         ⟨JStr.str "a", JStr.str "m2", JStr.str "t2"⟩,
         ⟨JStr.str "a", JStr.str "m1", JStr.str "t1"⟩]⟩ 1 0 2).1
      = ⟨[], [],
        [⟨JStr.str "a", JStr.str "m3", JStr.str "t3"⟩,
         ⟨JStr.str "a", JStr.str "m2", JStr.str "t2"⟩,
         ⟨JStr.str "a", JStr.str "m1", JStr.str "t1"⟩]⟩ ∧
    (loadMorePage
        [⟨JStr.str "a", JStr.str "m3", JStr.str "t3"⟩,
         ⟨JStr.str "a", JStr.str "m2", JStr.str "t2"⟩,
         ⟨JStr.str "a", JStr.str "m1", JStr.str "t1"⟩] 0 2).1.length ≤ 2 ∧
    collectPages
        [⟨JStr.str "a", JStr.str "m3", JStr.str "t3"⟩,
         ⟨JStr.str "a", JStr.str "m2", JStr.str "t2"⟩,
         ⟨JStr.str "a", JStr.str "m1", JStr.str "t1"⟩] 2 0
      = chronological
        [⟨JStr.str "a", JStr.str "m3", JStr.str "t3"⟩,
         ⟨JStr.str "a", JStr.str "m2", JStr.str "t2"⟩,
         ⟨JStr.str "a", JStr.str "m1", JStr.str "t1"⟩] := by
  have h := C8_pagination_exhaustive ⟨[], [],
    [⟨JStr.str "a", JStr.str "m3", JStr.str "t3"⟩,
     ⟨JStr.str "a", JStr.str "m2", JStr.str "t2"⟩,
     ⟨JStr.str "a", JStr.str "m1", JStr.str "t1"⟩]⟩ 1 0 2 (by decide)
  exact ⟨h.1, h.2.2.1, h.2.2.2.2.2.2⟩

end ChatApp
